import Mathlib

/-!
Verification development for the LightLink swap plugin
(`packages/plugin-lightlink/src/actions/swap.ts` together with
`packages/plugin-lightlink/src/types/index.ts`).

The swap pipeline (`SwapAction.swap`, `getQuote`, `executeSwap`) is embedded
shallowly: the external world (chain metadata, wallet addresses, RPC
responses) is a `SwapEnv` record, and the pipeline is a pure function that
returns the thrown-error-or-result together with the ordered list of network
calls it performed.  Machine integers (JS `bigint`) are modelled as `Int`
with JS truncating division (`Int.tdiv`); JS `number` values that reach a
`BigInt(...)` conversion are modelled as exact rationals, so float rounding
is idealised away.  All amounts are `Nat`/`Int` in the token's smallest
unit, exactly as in the source.
-/

set_option maxRecDepth 40000

/-- Big-endian byte encoding of `n % 256 ^ w` on exactly `w` bytes.  This is
the byte layout produced by viem for fixed-width words and packed values. -/
def natToBytesBE : ℕ → ℕ → List ℕ
  | 0, _ => []
  | w + 1, n => natToBytesBE w (n / 256) ++ [n % 256]

/-- Big-endian interpretation of a byte list as a natural number, as used by
ABI decoding of `uint` words. -/
def bytesToNat (bs : List ℕ) : ℕ := bs.foldl (fun a b => 256 * a + b) 0

/-- A 32-byte ABI word holding the value `n`. -/
def word32 (n : ℕ) : List ℕ := natToBytesBE 32 n

/-- Right-pad a byte string with zeros to a multiple of 32 bytes, as the ABI
encoding of dynamic `bytes` content does. -/
def padRight32 (bs : List ℕ) : List ℕ :=
  bs ++ List.replicate ((32 - bs.length % 32) % 32) 0

/-- The ABI word at byte offset `i` of a response, read as a `uint`. -/
def wordAt (bs : List ℕ) (i : ℕ) : ℕ := bytesToNat ((bs.drop i).take 32)

/-- Values passed to viem's `encodePacked` in `executeSwap` (the v3 swap
path is packed from `["address", "uint24", "address"]`). -/
inductive PackedParam
  | addressVal (a : ℕ)
  | uint24Val (n : ℕ)

/-- Packed (non-padded) encoding of a single value: 20 bytes for an address,
3 bytes for a `uint24`. -/
def encodePackedOne : PackedParam → List ℕ
  | .addressVal a => natToBytesBE 20 a
  | .uint24Val n => natToBytesBE 3 n

/-- viem `encodePacked`: concatenation of the packed encodings. -/
def encodePacked (ps : List PackedParam) : List ℕ :=
  (ps.map encodePackedOne).flatten

/-- Range validation performed by viem while packing (an address must be 20
bytes, a `uint24` must fit in 24 bits); out-of-range values throw. -/
def packedParamInRange : PackedParam → Bool
  | .addressVal a => a < 2 ^ 160
  | .uint24Val n => n < 2 ^ 24

/-- viem `encodePacked` including its validation: `none` models a thrown
encoding error. -/
def encodePackedChecked (ps : List PackedParam) : Option (List ℕ) :=
  if ps.all packedParamInRange then some (encodePacked ps) else none

/-- ABI values appearing in the two calls this plugin encodes.  `uintVal`
carries the declared bit width (256, 160 or 24 here) and a JS `bigint`
value, which viem range-checks before encoding. -/
inductive AbiValue
  | uintVal (bits : ℕ) (n : ℤ)
  | addressVal (a : ℕ)
  | boolVal (b : Bool)
  | bytesVal (bs : List ℕ)
  | bytesArrayVal (xs : List (List ℕ))

/-- Dynamic ABI types get an offset word in the head and their content in
the tail; `bytes` and `bytes[]` are the only dynamic types used here. -/
def AbiValue.isDynamic : AbiValue → Bool
  | .bytesVal _ => true
  | .bytesArrayVal _ => true
  | _ => false

/-- Tail encoding of one dynamic `bytes` element: length word followed by
the zero-padded content. -/
def encodeBytesTail (bs : List ℕ) : List ℕ := word32 bs.length ++ padRight32 bs

/-- Offsets of the elements of a `bytes[]` array, measured from the start of
the area following the array-length word: first `32 * count` offset words,
then the element encodings in order. -/
def bytesArrayOffsets (xs : List (List ℕ)) : List ℕ :=
  (List.range xs.length).map fun i =>
    32 * xs.length + ((xs.take i).map fun bs => (encodeBytesTail bs).length).sum

/-- Tail encoding of a dynamic value. -/
def encodeTail : AbiValue → List ℕ
  | .bytesVal bs => encodeBytesTail bs
  | .bytesArrayVal xs =>
      word32 xs.length ++ ((bytesArrayOffsets xs).map word32).flatten
        ++ (xs.map encodeBytesTail).flatten
  | _ => []

/-- Standard ABI head/tail encoding of a parameter list (viem's
`encodeAbiParameters`).  Every head here is a single word: static values
inline their word, dynamic values put the byte offset of their tail,
measured from the start of the encoding. -/
def encodeAbiParameters (vs : List AbiValue) : List ℕ :=
  let headSize := 32 * vs.length
  let step : List ℕ × List ℕ → AbiValue → List ℕ × List ℕ := fun acc v =>
    match v with
    | .uintVal _ n => (acc.1 ++ word32 n.toNat, acc.2)
    | .addressVal a => (acc.1 ++ word32 a, acc.2)
    | .boolVal b => (acc.1 ++ word32 (if b then 1 else 0), acc.2)
    | v => (acc.1 ++ word32 (headSize + acc.2.length), acc.2 ++ encodeTail v)
  let r := vs.foldl step ([], [])
  r.1 ++ r.2

/-- Range validation viem performs per value before encoding
(`IntegerOutOfRangeError` / `InvalidAddressError` on failure). -/
def abiValueInRange : AbiValue → Bool
  | .uintVal bits n => 0 ≤ n ∧ n < 2 ^ bits
  | .addressVal a => a < 2 ^ 160
  | _ => true

/-- viem `encodeAbiParameters` including its validation: `none` models a
thrown encoding error. -/
def encodeAbiParametersChecked (vs : List AbiValue) : Option (List ℕ) :=
  if vs.all abiValueInRange then some (encodeAbiParameters vs) else none

/-- Calldata as constructed by viem's `encodeFunctionData`: the 4-byte
selector is determined by the canonical signature (keccak is external, so
the signature string stands for the selector), followed by the encoded
arguments. -/
structure Calldata where
  functionSig : String
  body : List ℕ
deriving DecidableEq

/-- Canonical signature of the quoter call encoded by `getQuote`. -/
def quoteExactInputSingleSig : String :=
  "quoteExactInputSingle((address,address,uint256,uint24,uint160))"

/-- Canonical signature of the router call encoded by `executeSwap`. -/
def executeSig : String := "execute(bytes,bytes[])"

/-- Numeric value of one decimal digit character. -/
def digitToNat (c : Char) : ℕ := c.toNat - 48

/-- JS `BigInt` of a (possibly empty) string of decimal digits:
`BigInt("") = 0`, leading zeros are allowed. -/
def digitsToNat (cs : List Char) : ℕ :=
  cs.foldl (fun a c => 10 * a + digitToNat c) 0

/-- The trailing-zero trim `fraction.replace(/(0+)$/, "")` in viem's
`parseUnits`. -/
def dropTrailingZeros (cs : List Char) : List Char :=
  (cs.reverse.dropWhile (fun c => c = '0')).reverse

/-- Magnitude computed by viem's `parseUnits(value, 18)` from the integer
digits and the (already trailing-zero-trimmed) fraction digits.  When the
fraction is longer than 18 digits viem keeps 17 digits, rounds the 18th with
`Math.round` on the remaining digits (half rounds up; the string-level carry
propagation folds into plain arithmetic), and otherwise the fraction is
right-padded to 18 digits. -/
def parseUnits18 (i f0 : List Char) : ℕ :=
  let f := dropTrailingZeros f0
  if 18 < f.length then
    let left := digitsToNat (f.take 17)
    let unitDigit := digitToNat ((f.drop 17).headD '0')
    let right := f.drop 18
    let rounded :=
      if 10 ^ right.length ≤ 2 * digitsToNat right then unitDigit + 1
      else unitDigit
    digitsToNat i * 10 ^ 18 + (left * 10 + rounded)
  else
    digitsToNat i * 10 ^ 18 + digitsToNat f * 10 ^ (18 - f.length)

/-- viem `parseEther` (= `parseUnits(value, 18)`): `none` models the
`InvalidDecimalNumberError` thrown when the string does not match
`^(-?)([0-9]*)\.?([0-9]*)$`; otherwise the string is split at the dot, a
missing fraction defaults to `"0"`, and the sign is applied at the end. -/
def parseEther (value : String) : Option ℤ :=
  let cs := value.toList
  let neg : Bool := cs.headD ' ' = '-'
  let rest := if neg then cs.tail else cs
  let signed : ℕ → ℤ := fun n => if neg then -(n : ℤ) else (n : ℤ)
  match rest.splitOn '.' with
  | [ipart] =>
      if ipart.all Char.isDigit then some (signed (parseUnits18 ipart ['0']))
      else none
  | [ipart, fpart] =>
      if ipart.all Char.isDigit && fpart.all Char.isDigit then
        some (signed (parseUnits18 ipart fpart))
      else none
  | _ => none

/-- JS `BigInt(slippage * 10_000)` for `slippage : number | undefined`,
under exact (rational) arithmetic: `undefined * 10000` is `NaN` and
`BigInt(NaN)` throws, and `BigInt` of a non-integral number throws
(`none`); otherwise the integer `s * 10000` is produced, computed here as
`s.num * (10000 / s.den)` to stay kernel-computable. -/
def jsBigIntSlippageBP : Option ℚ → Option ℤ
  | none => none
  | some s =>
      if 10000 % s.den = 0 then some (s.num * ((10000 / s.den : ℕ) : ℤ))
      else none

/-- JS `bigint` division truncates toward zero. -/
def jsDiv (a b : ℤ) : ℤ := Int.tdiv a b

/-- Structure `SwapParams` (types/index.ts): note there is no field for a
caller-supplied minimum output.  `slippage` is optional; addresses are the
numeric value of the 20-byte hex strings. -/
structure SwapParams where
  chain : String
  fromToken : ℕ
  toToken : ℕ
  amount : String
  slippage : Option ℚ

/-- Structure `SwapTransaction` (types/index.ts). -/
structure SwapTransaction where
  hash : ℕ
  fromToken : ℕ
  toToken : ℕ
  amountIn : ℤ
  minAmountOut : ℤ
  recipient : ℕ
deriving DecidableEq

/-- The four decoded outputs of `quoteExactInputSingle` as returned by
`getQuote`. -/
structure QuoteResult where
  amountOut : ℕ
  sqrtPriceX96After : ℕ
  initTicksCrossed : ℕ
  gasEstimate : ℕ
deriving DecidableEq

/-- viem `ChainContract` (only the address field is used). -/
structure ChainContract where
  address : ℕ
deriving DecidableEq

/-- The two contract entries `swap` reads from the chain metadata; either
may be absent (`chain.contracts.uniswapV3Quoter as ChainContract` is a
bare cast, so absence only surfaces on dereference). -/
structure ChainContracts where
  uniswapV3Quoter : Option ChainContract
  universalRouter : Option ChainContract
deriving DecidableEq

/-- Transaction receipt status as used by the `receipt.status ===
"reverted"` check. -/
inductive ReceiptStatus
  | success
  | reverted
deriving DecidableEq

/-- A transaction receipt (only the status is consulted). -/
structure Receipt where
  status : ReceiptStatus
deriving DecidableEq

/-- Distinct failure exits of the swap pipeline.  The first eight
correspond to the concrete throw sites of the code and of the viem
primitives it calls; the last two are names from the specification's error
taxonomy, included so that specification claims about them can be stated
(the code has no throw site producing them). -/
inductive SwapError
  | typeError
  | invalidDecimalNumber
  | integerOutOfRange
  | invalidAddress
  | quoteCallFailed
  | quoteDecodeFailed
  | bigIntRangeError
  | sendFailed
  | transactionFailed
  | invalidParameterError
  | configurationError
deriving DecidableEq

/-- One network interaction performed by the pipeline: `readCall` is a
read-only `eth_call` (`publicClient.call`), `sendTx` is
`walletClient.sendTransaction`, `waitReceipt` is
`publicClient.waitForTransactionReceipt`. -/
inductive NetworkCall
  | readCall (target : ℕ) (data : Calldata)
  | sendTx (target : ℕ) (account : ℕ) (data : Calldata)
  | waitReceipt (h : ℕ)
deriving DecidableEq

/-- Whether a network call submits a transaction. -/
def NetworkCall.isSendTx : NetworkCall → Bool
  | .sendTx _ _ _ => true
  | _ => false

/-- The external world as seen by one run of `swap`: the resolved chain
metadata, the wallet's address list, and the responses the network returns
for each kind of call.  `tokenDecimals` models the ERC-20 `decimals` of
every token; the pipeline never consults it. -/
structure SwapEnv where
  contracts : ChainContracts
  walletAddresses : List ℕ
  quoteResponse : Except Unit (List ℕ)
  sendResult : Except Unit ℕ
  receipt : Option Receipt
  tokenDecimals : ℕ → ℕ

/-- Model of `decodeFunctionResult` for `quoteExactInputSingle`: the four outputs
`(amountOut, sqrtPriceX96After, initializedTicksCrossed, gasEstimate)` are
read as consecutive 32-byte words; a response shorter than four words makes
the decoder throw (`none`). -/
def decodeQuoteResult (bs : List ℕ) : Option QuoteResult :=
  if bs.length < 128 then none
  else some ⟨wordAt bs 0, wordAt bs 32, wordAt bs 64, wordAt bs 96⟩

/-- Body of the calldata `getQuote` encodes: the
`QuoteExactInputSingleParams` tuple is static, so its ABI encoding is the
five 32-byte words in order, with `sqrtPriceLimitX96` fixed at `0`. -/
def quoteCallBodyChecked (fromToken toToken : ℕ) (amountIn : ℤ) (fee : ℕ) :
    Option (List ℕ) :=
  encodeAbiParametersChecked
    [.addressVal fromToken, .addressVal toToken, .uintVal 256 amountIn,
     .uintVal 24 (fee : ℤ), .uintVal 160 0]

/-- Model of `executeSwap` (swap.ts): fetches the signer address, packs the v3 swap
path `tokenIn ++ fee ++ tokenOut`, ABI-encodes the single input entry
`(recipient, amountIn, amountOutMin, path, payerIsUser = true)`, wraps it in
an `execute` call with the single command byte `0x00`, and submits the
transaction.  Returns the thrown error or the transaction hash, plus the
submissions performed. -/
def executeSwapModel (env : SwapEnv) (universalRouter fromToken toToken : ℕ)
    (amountIn amountOutMin : ℤ) (fee : ℕ) :
    Except SwapError ℕ × List NetworkCall :=
  match env.walletAddresses.head? with
  | none => (.error .invalidAddress, [])
  | some fromAddress =>
    match encodePackedChecked
        [.addressVal fromToken, .uint24Val fee, .addressVal toToken] with
    | none => (.error .integerOutOfRange, [])
    | some v3SwapRoute =>
      match encodeAbiParametersChecked
          [.addressVal fromAddress, .uintVal 256 amountIn,
           .uintVal 256 amountOutMin, .bytesVal v3SwapRoute,
           .boolVal true] with
      | none => (.error .integerOutOfRange, [])
      | some inputs =>
        match encodeAbiParametersChecked
            [.bytesVal [0x00], .bytesArrayVal [inputs]] with
        | none => (.error .integerOutOfRange, [])
        | some callBody =>
          let call := NetworkCall.sendTx universalRouter fromAddress
            ⟨executeSig, callBody⟩
          match env.sendResult with
          | .error _ => (.error .sendFailed, [call])
          | .ok tx => (.ok tx, [call])

/-- Model of `SwapAction.swap` (swap.ts), following the source line by line:
destructure the signer address; dereference
`chain.contracts.uniswapV3Quoter.address` (a `TypeError` if the entry is
absent); `parseEther(params.amount)`; `getQuote` (encode, read-only call,
decode); `BigInt(params.slippage * 10_000)`;
`minAmountOut = amountOut - (amountOut * slippageBP) / 100000n`;
dereference `universalRouter.address`; `executeSwap`;
`waitForTransactionReceipt`, failing with `"Transaction failed"` when the
receipt is absent or reverted; finally build the `SwapTransaction`. -/
def swapModel (env : SwapEnv) (p : SwapParams) :
    Except SwapError SwapTransaction × List NetworkCall :=
  let fromAddress? := env.walletAddresses.head?
  match env.contracts.uniswapV3Quoter with
  | none => (.error .typeError, [])
  | some uniswapV3Quoter =>
    match parseEther p.amount with
    | none => (.error .invalidDecimalNumber, [])
    | some amountIn =>
      match quoteCallBodyChecked p.fromToken p.toToken amountIn 3000 with
      | none => (.error .integerOutOfRange, [])
      | some quoteBody =>
        let quoteCall := NetworkCall.readCall uniswapV3Quoter.address
          ⟨quoteExactInputSingleSig, quoteBody⟩
        match env.quoteResponse with
        | .error _ => (.error .quoteCallFailed, [quoteCall])
        | .ok respBytes =>
          match decodeQuoteResult respBytes with
          | none => (.error .quoteDecodeFailed, [quoteCall])
          | some quote =>
            match jsBigIntSlippageBP p.slippage with
            | none => (.error .bigIntRangeError, [quoteCall])
            | some slippageBP =>
              let minAmountOut : ℤ :=
                (quote.amountOut : ℤ) -
                  jsDiv ((quote.amountOut : ℤ) * slippageBP) 100000
              match env.contracts.universalRouter with
              | none => (.error .typeError, [quoteCall])
              | some universalRouter =>
                match executeSwapModel env universalRouter.address
                    p.fromToken p.toToken amountIn minAmountOut 3000 with
                | (.error e, calls) => (.error e, quoteCall :: calls)
                | (.ok tx, calls) =>
                  let allCalls :=
                    quoteCall :: calls ++ [NetworkCall.waitReceipt tx]
                  match env.receipt with
                  | none => (.error .transactionFailed, allCalls)
                  | some receipt =>
                    match receipt.status with
                    | .reverted => (.error .transactionFailed, allCalls)
                    | .success =>
                      (.ok { hash := tx, fromToken := p.fromToken,
                             toToken := p.toToken, amountIn := amountIn,
                             minAmountOut := minAmountOut,
                             recipient := fromAddress?.getD 0 }, allCalls)

/-- The decoded quote amount a run of `swap` would work with: the first
word of the quote response, when the read call succeeded and decoded. -/
def quotedAmountOut (env : SwapEnv) : Option ℕ :=
  match env.quoteResponse with
  | .error _ => none
  | .ok bs => (decodeQuoteResult bs).map QuoteResult.amountOut

/-- When `BigInt(slippage * 10_000)` succeeds, the produced basis-point
value is exactly the rational `s * 10000` (hence an integer). -/
theorem jsBigIntSlippageBP_spec (s : ℚ) (bp : ℤ)
    (h : jsBigIntSlippageBP (some s) = some bp) : (s * 10000 : ℚ) = (bp : ℚ) := by
  simp only [jsBigIntSlippageBP] at h
  split at h
  · rename_i hmod
    have hbp : bp = s.num * ((10000 / s.den : ℕ) : ℤ) := (Option.some_inj.mp h).symm
    have hdvd : s.den ∣ 10000 := Nat.dvd_of_mod_eq_zero hmod
    have hden : (s.den : ℚ) ≠ 0 := by exact_mod_cast s.den_ne_zero
    have hmul : ((s.den : ℕ) : ℚ) * ((10000 / s.den : ℕ) : ℚ) = 10000 := by
      exact_mod_cast congrArg (fun n : ℕ => (n : ℚ)) (Nat.mul_div_cancel' hdvd)
    subst hbp
    calc s * 10000
        = (s.num : ℚ) / (s.den : ℚ) * ((s.den : ℚ) * ((10000 / s.den : ℕ) : ℚ)) := by
          rw [Rat.num_div_den, hmul]
      _ = (s.num : ℚ) * ((10000 / s.den : ℕ) : ℚ) * (s.den : ℚ) / (s.den : ℚ) := by
          rw [div_mul_eq_mul_div]; ring_nf
      _ = (s.num : ℚ) * ((10000 / s.den : ℕ) : ℚ) := mul_div_cancel_right₀ _ hden
      _ = ((s.num * ((10000 / s.den : ℕ) : ℤ) : ℤ) : ℚ) := by
          rw [Int.cast_mul, Int.cast_natCast]
  · exact absurd h (by simp)

/-- The basis-point value is the rounding of `s * 10000` (it is already an
integer, so rounding is the identity). -/
theorem jsBigIntSlippageBP_round (s : ℚ) (bp : ℤ)
    (h : jsBigIntSlippageBP (some s) = some bp) : bp = round (s * 10000) := by
  rw [jsBigIntSlippageBP_spec s bp h, round_intCast]

/-- Inversion of a successful run of `swap`: every stage of the pipeline
must have succeeded, and the result fields and the network-call trace are
determined by the environment and parameters. -/
theorem swapModel_ok_inv (env : SwapEnv) (p : SwapParams) (tx : SwapTransaction)
    (h : (swapModel env p).1 = .ok tx) :
    ∃ quoterC routerC a rest amountIn quoteBody respBytes quote bp txh
      route inputs callBody,
      env.contracts.uniswapV3Quoter = some quoterC ∧
      env.contracts.universalRouter = some routerC ∧
      env.walletAddresses = a :: rest ∧
      parseEther p.amount = some amountIn ∧
      quoteCallBodyChecked p.fromToken p.toToken amountIn 3000 = some quoteBody ∧
      env.quoteResponse = .ok respBytes ∧
      decodeQuoteResult respBytes = some quote ∧
      jsBigIntSlippageBP p.slippage = some bp ∧
      env.sendResult = .ok txh ∧
      env.receipt = some ⟨.success⟩ ∧
      encodePackedChecked
        [.addressVal p.fromToken, .uint24Val 3000, .addressVal p.toToken] =
        some route ∧
      encodeAbiParametersChecked
        [.addressVal a, .uintVal 256 amountIn,
         .uintVal 256 ((quote.amountOut : ℤ) -
           jsDiv ((quote.amountOut : ℤ) * bp) 100000),
         .bytesVal route, .boolVal true] = some inputs ∧
      encodeAbiParametersChecked [.bytesVal [0x00], .bytesArrayVal [inputs]] =
        some callBody ∧
      tx = { hash := txh, fromToken := p.fromToken, toToken := p.toToken,
             amountIn := amountIn,
             minAmountOut := (quote.amountOut : ℤ) -
               jsDiv ((quote.amountOut : ℤ) * bp) 100000,
             recipient := a } ∧
      (swapModel env p).2 =
        [NetworkCall.readCall quoterC.address
           ⟨quoteExactInputSingleSig, quoteBody⟩,
         NetworkCall.sendTx routerC.address a ⟨executeSig, callBody⟩,
         NetworkCall.waitReceipt txh] := by
  obtain ⟨⟨cq, cr⟩, addrs, qresp, sres, rcpt, tdec⟩ := env
  cases cq with
  | none => simp [swapModel] at h
  | some quoterC =>
  cases hpe : parseEther p.amount with
  | none => simp [swapModel, hpe] at h
  | some amountIn =>
  cases hqb : quoteCallBodyChecked p.fromToken p.toToken amountIn 3000 with
  | none => simp [swapModel, hpe, hqb] at h
  | some quoteBody =>
  cases qresp with
  | error e => simp [swapModel, hpe, hqb] at h
  | ok respBytes =>
  cases hdec : decodeQuoteResult respBytes with
  | none => simp [swapModel, hpe, hqb, hdec] at h
  | some quote =>
  cases hbp : jsBigIntSlippageBP p.slippage with
  | none => simp [swapModel, hpe, hqb, hdec, hbp] at h
  | some bp =>
  cases cr with
  | none => simp [swapModel, hpe, hqb, hdec, hbp] at h
  | some routerC =>
  cases addrs with
  | nil => simp [swapModel, executeSwapModel, hpe, hqb, hdec, hbp] at h
  | cons a rest =>
  cases hrt : encodePackedChecked
      [.addressVal p.fromToken, .uint24Val 3000, .addressVal p.toToken] with
  | none => simp [swapModel, executeSwapModel, hpe, hqb, hdec, hbp, hrt] at h
  | some route =>
  cases hin : encodeAbiParametersChecked
      [.addressVal a, .uintVal 256 amountIn,
       .uintVal 256 ((quote.amountOut : ℤ) -
         jsDiv ((quote.amountOut : ℤ) * bp) 100000),
       .bytesVal route, .boolVal true] with
  | none => simp [swapModel, executeSwapModel, hpe, hqb, hdec, hbp, hrt, hin] at h
  | some inputs =>
  cases hcb : encodeAbiParametersChecked [.bytesVal [0x00], .bytesArrayVal [inputs]] with
  | none =>
      simp [swapModel, executeSwapModel, hpe, hqb, hdec, hbp, hrt, hin, hcb] at h
  | some callBody =>
  cases sres with
  | error e =>
      simp [swapModel, executeSwapModel, hpe, hqb, hdec, hbp, hrt, hin, hcb] at h
  | ok txh =>
  cases rcpt with
  | none =>
      simp [swapModel, executeSwapModel, hpe, hqb, hdec, hbp, hrt, hin, hcb] at h
  | some receipt =>
  cases receipt with
  | mk st =>
  cases st with
  | reverted =>
      simp [swapModel, executeSwapModel, hpe, hqb, hdec, hbp, hrt, hin, hcb] at h
  | success =>
  refine ⟨quoterC, routerC, a, rest, amountIn, quoteBody, respBytes, quote, bp,
    txh, route, inputs, callBody, rfl, rfl, rfl, rfl, hqb, rfl, hdec, rfl, rfl,
    rfl, rfl, hin, hcb, ?_, ?_⟩
  · have := h
    simp [swapModel, executeSwapModel, hpe, hqb, hdec, hbp, hrt, hin, hcb] at this
    exact this.symm
  · simp [swapModel, executeSwapModel, hpe, hqb, hdec, hbp, hrt, hin, hcb]

/-- Unfolding of the packed v3 swap path: the 20-byte `tokenIn`, the 3-byte
big-endian fee, and the 20-byte `tokenOut`, concatenated with no padding. -/
theorem encodePackedChecked_path (t1 fee t2 : ℕ) (route : List ℕ)
    (h : encodePackedChecked
      [.addressVal t1, .uint24Val fee, .addressVal t2] = some route) :
    route = natToBytesBE 20 t1 ++ natToBytesBE 3 fee ++ natToBytesBE 20 t2 := by
  unfold encodePackedChecked at h
  split at h
  · simpa [encodePacked, encodePackedOne] using h.symm
  · exact absurd h (by simp)

/-- Each fixed-width byte encoding has exactly its declared width. -/
theorem natToBytesBE_length (w n : ℕ) : (natToBytesBE w n).length = w := by
  induction w generalizing n with
  | zero => simp [natToBytesBE]
  | succ k ih => simp [natToBytesBE, ih]

/-- An ABI word is 32 bytes long. -/
theorem word32_length (n : ℕ) : (word32 n).length = 32 :=
  natToBytesBE_length 32 n

/-- A successful checked encoding is the plain encoding. -/
theorem encodeAbiParametersChecked_some (vs : List AbiValue) (body : List ℕ)
    (h : encodeAbiParametersChecked vs = some body) :
    body = encodeAbiParameters vs := by
  unfold encodeAbiParametersChecked at h
  split at h
  · exact (Option.some_inj.mp h).symm
  · exact absurd h (by simp)

/-- Unfolding of the quoter calldata body: the static
`QuoteExactInputSingleParams` tuple is its five 32-byte words in order. -/
theorem quoteCallBodyChecked_spec (t1 t2 : ℕ) (amt : ℤ) (fee : ℕ)
    (body : List ℕ) (h : quoteCallBodyChecked t1 t2 amt fee = some body) :
    body = word32 t1 ++ word32 t2 ++ word32 amt.toNat ++
      word32 ((fee : ℤ)).toNat ++ word32 0 := by
  rw [encodeAbiParametersChecked_some _ _ h]
  simp [encodeAbiParameters]

/-- Unfolding of the router-call input entry: five head words (the `bytes`
path head is the offset `160`), followed by the path's length word and its
zero-padded content. -/
theorem encodeAbiChecked_swapInputs (a : ℕ) (x y : ℤ) (path : List ℕ)
    (inputs : List ℕ)
    (h : encodeAbiParametersChecked
      [.addressVal a, .uintVal 256 x, .uintVal 256 y, .bytesVal path,
       .boolVal true] = some inputs) :
    inputs = word32 a ++ word32 x.toNat ++ word32 y.toNat ++ word32 160 ++
      word32 1 ++ (word32 path.length ++ padRight32 path) := by
  rw [encodeAbiParametersChecked_some _ _ h]
  simp [encodeAbiParameters, encodeTail, encodeBytesTail]

/-- Unfolding of the `execute(commands, inputs)` calldata body: two offset
words, the commands entry (length word `1`, the single byte `0x00`, 31
padding zeros), then the `bytes[]` entry (array length `1`, element offset
`32`, and the single input entry's length word and padded content). -/
theorem encodeAbiChecked_execute (inputs : List ℕ) (callBody : List ℕ)
    (h : encodeAbiParametersChecked
      [.bytesVal [0x00], .bytesArrayVal [inputs]] = some callBody) :
    callBody = word32 64 ++ word32 128 ++
      (word32 1 ++ ([0] ++ List.replicate 31 0)) ++
      (word32 1 ++ (word32 32 ++ (word32 inputs.length ++ padRight32 inputs))) := by
  rw [encodeAbiParametersChecked_some _ _ h]
  simp [encodeAbiParameters, encodeTail, encodeBytesTail, bytesArrayOffsets,
    padRight32, word32_length, List.range_succ, List.range_zero, Function.comp]

/-- Shape of the network-call trace of any run of `swap`: nothing at all, a
single quote read, or the quote read followed by the router submission and
optionally the receipt wait.  The calls' targets and payloads are pinned to
the pipeline's own encodings whenever they occur. -/
theorem swapModel_trace_shape (env : SwapEnv) (p : SwapParams) :
    (swapModel env p).2 = [] ∨
    ∃ quoterC amountIn quoteBody,
      env.contracts.uniswapV3Quoter = some quoterC ∧
      parseEther p.amount = some amountIn ∧
      quoteCallBodyChecked p.fromToken p.toToken amountIn 3000 =
        some quoteBody ∧
      ((swapModel env p).2 =
        [NetworkCall.readCall quoterC.address
          ⟨quoteExactInputSingleSig, quoteBody⟩] ∨
       ∃ routerC a rest respBytes quote bp route inputs callBody rest2,
        env.walletAddresses = a :: rest ∧
        env.quoteResponse = .ok respBytes ∧
        decodeQuoteResult respBytes = some quote ∧
        jsBigIntSlippageBP p.slippage = some bp ∧
        env.contracts.universalRouter = some routerC ∧
        encodePackedChecked
          [.addressVal p.fromToken, .uint24Val 3000,
           .addressVal p.toToken] = some route ∧
        encodeAbiParametersChecked
          [.addressVal a, .uintVal 256 amountIn,
           .uintVal 256 ((quote.amountOut : ℤ) -
             jsDiv ((quote.amountOut : ℤ) * bp) 100000),
           .bytesVal route, .boolVal true] = some inputs ∧
        encodeAbiParametersChecked
          [.bytesVal [0x00], .bytesArrayVal [inputs]] = some callBody ∧
        (swapModel env p).2 =
          NetworkCall.readCall quoterC.address
              ⟨quoteExactInputSingleSig, quoteBody⟩ ::
            NetworkCall.sendTx routerC.address a ⟨executeSig, callBody⟩ ::
            rest2 ∧
        (rest2 = [] ∨
         ∃ txh, env.sendResult = .ok txh ∧
           rest2 = [NetworkCall.waitReceipt txh])) := by
  obtain ⟨⟨cq, cr⟩, addrs, qresp, sres, rcpt, tdec⟩ := env
  cases cq with
  | none => exact .inl (by simp [swapModel])
  | some quoterC =>
  cases hpe : parseEther p.amount with
  | none => exact .inl (by simp [swapModel, hpe])
  | some amountIn =>
  cases hqb : quoteCallBodyChecked p.fromToken p.toToken amountIn 3000 with
  | none => exact .inl (by simp [swapModel, hpe, hqb])
  | some quoteBody =>
  refine .inr ⟨quoterC, amountIn, quoteBody, rfl, rfl, hqb, ?_⟩
  cases qresp with
  | error e => exact .inl (by simp [swapModel, hpe, hqb])
  | ok respBytes =>
  cases hdec : decodeQuoteResult respBytes with
  | none => exact .inl (by simp [swapModel, hpe, hqb, hdec])
  | some quote =>
  cases hbp : jsBigIntSlippageBP p.slippage with
  | none => exact .inl (by simp [swapModel, hpe, hqb, hdec, hbp])
  | some bp =>
  cases cr with
  | none => exact .inl (by simp [swapModel, hpe, hqb, hdec, hbp])
  | some routerC =>
  cases addrs with
  | nil => exact .inl (by simp [swapModel, executeSwapModel, hpe, hqb, hdec, hbp])
  | cons a rest =>
  cases hrt : encodePackedChecked
      [.addressVal p.fromToken, .uint24Val 3000, .addressVal p.toToken] with
  | none =>
      exact .inl (by simp [swapModel, executeSwapModel, hpe, hqb, hdec, hbp, hrt])
  | some route =>
  cases hin : encodeAbiParametersChecked
      [.addressVal a, .uintVal 256 amountIn,
       .uintVal 256 ((quote.amountOut : ℤ) -
         jsDiv ((quote.amountOut : ℤ) * bp) 100000),
       .bytesVal route, .boolVal true] with
  | none =>
      exact .inl
        (by simp [swapModel, executeSwapModel, hpe, hqb, hdec, hbp, hrt, hin])
  | some inputs =>
  cases hcb : encodeAbiParametersChecked
      [.bytesVal [0x00], .bytesArrayVal [inputs]] with
  | none =>
      exact .inl
        (by simp [swapModel, executeSwapModel, hpe, hqb, hdec, hbp, hrt, hin, hcb])
  | some callBody =>
  cases sres with
  | error e =>
      refine .inr ⟨routerC, a, rest, respBytes, quote, bp, route, inputs,
        callBody, [], rfl, rfl, hdec, rfl, rfl, rfl, hin, hcb, ?_, .inl rfl⟩
      simp [swapModel, executeSwapModel, hpe, hqb, hdec, hbp, hrt, hin, hcb]
  | ok txh =>
  refine .inr ⟨routerC, a, rest, respBytes, quote, bp, route, inputs,
    callBody, [NetworkCall.waitReceipt txh], rfl, rfl, hdec, rfl, rfl, rfl,
    hin, hcb, ?_, .inr ⟨txh, rfl, rfl⟩⟩
  cases rcpt with
  | none => simp [swapModel, executeSwapModel, hpe, hqb, hdec, hbp, hrt, hin, hcb]
  | some receipt =>
  cases receipt with
  | mk st =>
  cases st <;>
    simp [swapModel, executeSwapModel, hpe, hqb, hdec, hbp, hrt, hin, hcb]

/-- Every failure of the pipeline is one of the nine concrete throw sites;
in particular neither `InvalidParameterError` nor `ConfigurationError` of
the specification's taxonomy is ever produced. -/
theorem swapModel_error_cases (env : SwapEnv) (p : SwapParams) (e : SwapError)
    (h : (swapModel env p).1 = .error e) :
    e = .typeError ∨ e = .invalidDecimalNumber ∨ e = .integerOutOfRange ∨
    e = .invalidAddress ∨ e = .quoteCallFailed ∨ e = .quoteDecodeFailed ∨
    e = .bigIntRangeError ∨ e = .sendFailed ∨ e = .transactionFailed := by
  obtain ⟨⟨cq, cr⟩, addrs, qresp, sres, rcpt, tdec⟩ := env
  cases cq with
  | none => simp [swapModel] at h; cases h; simp
  | some quoterC =>
  cases hpe : parseEther p.amount with
  | none => simp [swapModel, hpe] at h; cases h; simp
  | some amountIn =>
  cases hqb : quoteCallBodyChecked p.fromToken p.toToken amountIn 3000 with
  | none => simp [swapModel, hpe, hqb] at h; cases h; simp
  | some quoteBody =>
  cases qresp with
  | error err => simp [swapModel, hpe, hqb] at h; cases h; simp
  | ok respBytes =>
  cases hdec : decodeQuoteResult respBytes with
  | none => simp [swapModel, hpe, hqb, hdec] at h; cases h; simp
  | some quote =>
  cases hbp : jsBigIntSlippageBP p.slippage with
  | none => simp [swapModel, hpe, hqb, hdec, hbp] at h; cases h; simp
  | some bp =>
  cases cr with
  | none => simp [swapModel, hpe, hqb, hdec, hbp] at h; cases h; simp
  | some routerC =>
  cases addrs with
  | nil =>
      simp [swapModel, executeSwapModel, hpe, hqb, hdec, hbp] at h
      cases h; simp
  | cons a rest =>
  cases hrt : encodePackedChecked
      [.addressVal p.fromToken, .uint24Val 3000, .addressVal p.toToken] with
  | none =>
      simp [swapModel, executeSwapModel, hpe, hqb, hdec, hbp, hrt] at h
      cases h; simp
  | some route =>
  cases hin : encodeAbiParametersChecked
      [.addressVal a, .uintVal 256 amountIn,
       .uintVal 256 ((quote.amountOut : ℤ) -
         jsDiv ((quote.amountOut : ℤ) * bp) 100000),
       .bytesVal route, .boolVal true] with
  | none =>
      simp [swapModel, executeSwapModel, hpe, hqb, hdec, hbp, hrt, hin] at h
      cases h; simp
  | some inputs =>
  cases hcb : encodeAbiParametersChecked
      [.bytesVal [0x00], .bytesArrayVal [inputs]] with
  | none =>
      simp [swapModel, executeSwapModel, hpe, hqb, hdec, hbp, hrt, hin, hcb] at h
      cases h; simp
  | some callBody =>
  cases sres with
  | error err =>
      simp [swapModel, executeSwapModel, hpe, hqb, hdec, hbp, hrt, hin, hcb] at h
      cases h; simp
  | ok txh =>
  cases rcpt with
  | none =>
      simp [swapModel, executeSwapModel, hpe, hqb, hdec, hbp, hrt, hin, hcb] at h
      cases h; simp
  | some receipt =>
  cases receipt with
  | mk st =>
  cases st with
  | reverted =>
      simp [swapModel, executeSwapModel, hpe, hqb, hdec, hbp, hrt, hin, hcb] at h
      cases h; simp
  | success =>
      simp [swapModel, executeSwapModel, hpe, hqb, hdec, hbp, hrt, hin, hcb] at h

/-- C3: for every submitted swap transaction, if the awaited receipt is
absent or its status is "reverted", `swap()` throws (the code's
`"Transaction failed"` error, the spec's `ExecutionRevertedError`) and no
`SwapTransaction` value is returned to the caller. -/
theorem swap_receipt_reverted_fails (env : SwapEnv) (p : SwapParams)
    (h : env.receipt = none ∨
      ∃ r, env.receipt = some r ∧ r.status = .reverted) :
    (∀ tx, (swapModel env p).1 ≠ .ok tx) ∧
    (∀ txh, NetworkCall.waitReceipt txh ∈ (swapModel env p).2 →
      (swapModel env p).1 = .error .transactionFailed) := by
  refine ⟨fun tx hok => ?_, fun txh hmem => ?_⟩
  · obtain ⟨qC, rC, a, rest, amtIn, qB, rb, qt, bp, th, rt, inp, cb, hcq, hcr,
      haddr, hpe, hqb, hqr, hdec, hbp, hsr, hrc, hroute, hinp, hcb2, htx,
      htrace⟩ := swapModel_ok_inv env p tx hok
    rcases h with hr | ⟨r, hr, hst⟩
    · rw [hrc] at hr; cases hr
    · rw [hrc] at hr
      obtain rfl : r = ⟨.success⟩ := (Option.some_inj.mp hr).symm
      simp at hst
  · rcases swapModel_trace_shape env p with ht |
      ⟨qC, amtIn, qB, hcq, hpe, hqb, ht |
        ⟨rC, a, rest, rb, qt, bp, rt, inp, cb, rest2, haddr, hqr, hdec, hbp,
         hcr, hroute, hinp, hcb2, ht, hrest⟩⟩
    · rw [ht] at hmem; cases hmem
    · rw [ht] at hmem; simp at hmem
    · rcases hrest with rfl | ⟨txh2, hsr, rfl⟩
      · rw [ht] at hmem; simp at hmem
      · rcases h with hr | ⟨⟨st⟩, hr, hst⟩
        · simp [swapModel, executeSwapModel, hcq, hpe, hqb, hqr, hdec, hbp,
            hcr, haddr, hroute, hinp, hcb2, hsr, hr]
        · simp only [Receipt.status] at hst
          subst hst
          simp [swapModel, executeSwapModel, hcq, hpe, hqb, hqr, hdec, hbp,
            hcr, haddr, hroute, hinp, hcb2, hsr, hr]

/-- C4: a failed quote fetch (the read call reverts, or its response does
not decode) makes `swap()` fail, the failure is exactly the quote error,
and the router `execute` call is never reached: no transaction is ever
submitted after a failed quote. -/
theorem swap_quote_failure_no_submission (env : SwapEnv) (p : SwapParams)
    (h : env.quoteResponse = .error () ∨
      ∃ bs, env.quoteResponse = .ok bs ∧ decodeQuoteResult bs = none) :
    (∀ tx, (swapModel env p).1 ≠ .ok tx) ∧
    (∀ c ∈ (swapModel env p).2, c.isSendTx = false) ∧
    (∀ target cd, NetworkCall.readCall target cd ∈ (swapModel env p).2 →
      (swapModel env p).1 = .error .quoteCallFailed ∨
      (swapModel env p).1 = .error .quoteDecodeFailed) := by
  have hq : ∀ rb (qt : QuoteResult), env.quoteResponse = .ok rb →
      decodeQuoteResult rb = some qt → False := by
    intro rb qt hok hdec
    rcases h with hr | ⟨bs, hbs, hnone⟩
    · rw [hr] at hok; cases hok
    · rw [hbs] at hok
      obtain rfl : bs = rb := Except.ok.inj hok
      rw [hnone] at hdec; cases hdec
  refine ⟨fun tx hok => ?_, fun c hmem => ?_, fun target cd hmem => ?_⟩
  · obtain ⟨qC, rC, a, rest, amtIn, qB, rb, qt, bp, th, rt, inp, cb, hcq, hcr,
      haddr, hpe, hqb, hqr, hdec, hbp, hsr, hrc, hroute, hinp, hcb2, htx,
      htrace⟩ := swapModel_ok_inv env p tx hok
    exact hq rb qt hqr hdec
  · rcases swapModel_trace_shape env p with ht |
      ⟨qC, amtIn, qB, hcq, hpe, hqb, ht |
        ⟨rC, a, rest, rb, qt, bp, rt, inp, cb, rest2, haddr, hqr, hdec, hbp,
         hcr, hroute, hinp, hcb2, ht, hrest⟩⟩
    · rw [ht] at hmem; cases hmem
    · rw [ht] at hmem
      simp at hmem
      rw [hmem]
      simp [NetworkCall.isSendTx]
    · exact (hq rb qt hqr hdec).elim
  · rcases swapModel_trace_shape env p with ht |
      ⟨qC, amtIn, qB, hcq, hpe, hqb, ht |
        ⟨rC, a, rest, rb, qt, bp, rt, inp, cb, rest2, haddr, hqr, hdec, hbp,
         hcr, hroute, hinp, hcb2, ht, hrest⟩⟩
    · rw [ht] at hmem; cases hmem
    · rcases h with hr | ⟨bs, hbs, hnone⟩
      · exact .inl (by simp [swapModel, hcq, hpe, hqb, hr])
      · exact .inr (by simp [swapModel, hcq, hpe, hqb, hbs, hnone])
    · exact (hq rb qt hqr hdec).elim

/-- Whether a pipeline outcome is a failure with the specification's
`InvalidParameterError`. -/
def isInvalidParameterFailure : Except SwapError SwapTransaction → Bool
  | .error .invalidParameterError => true
  | _ => false

/-- C2 (amended): the swap executor performs no slippage-range validation
at all.  No run of the pipeline ever fails with the specification's
`InvalidParameterError`; out-of-range slippage fractions flow unchecked
into the minimum-output formula. -/
theorem swap_never_invalidParameter (env : SwapEnv) (p : SwapParams) :
    isInvalidParameterFailure (swapModel env p).1 = false := by
  cases hres : (swapModel env p).1 with
  | ok tx => simp [isInvalidParameterFailure]
  | error e =>
    rcases swapModel_error_cases env p e hres with h1 | h1 | h1 | h1 | h1 |
      h1 | h1 | h1 | h1 <;> subst h1 <;> simp [isInvalidParameterFailure]

/-- C7 (amended): a missing quoter entry makes `swap` throw a `TypeError`
(dereferencing `undefined`), not a `ConfigurationError`, before any network
call; a missing router entry, however, only fails after the quote was
fetched (the dereference sits in the `executeSwap` argument list), though
still before any transaction is submitted. -/
theorem swap_missing_contract_behavior (env : SwapEnv) (p : SwapParams) :
    (env.contracts.uniswapV3Quoter = none →
      (swapModel env p).1 = .error .typeError ∧ (swapModel env p).2 = []) ∧
    (env.contracts.universalRouter = none →
      (∀ tx, (swapModel env p).1 ≠ .ok tx) ∧
      ∀ c ∈ (swapModel env p).2, c.isSendTx = false) := by
  constructor
  · intro hq
    obtain ⟨⟨cq, cr⟩, addrs, qresp, sres, rcpt, tdec⟩ := env
    simp only at hq
    subst hq
    exact ⟨by simp [swapModel], by simp [swapModel]⟩
  · intro hr
    refine ⟨fun tx hok => ?_, fun c hmem => ?_⟩
    · obtain ⟨qC, rC, a, rest, amtIn, qB, rb, qt, bp, th, rt, inp, cb, hcq,
        hcr, haddr, hpe, hqb, hqr, hdec, hbp, hsr, hrc, hroute, hinp, hcb2,
        htx, htrace⟩ := swapModel_ok_inv env p tx hok
      rw [hr] at hcr; cases hcr
    · rcases swapModel_trace_shape env p with ht |
        ⟨qC, amtIn, qB, hcq, hpe, hqb, ht |
          ⟨rC, a, rest, rb, qt, bp, rt, inp, cb, rest2, haddr, hqr, hdec, hbp,
           hcr, hroute, hinp, hcb2, ht, hrest⟩⟩
      · rw [ht] at hmem; cases hmem
      · rw [ht] at hmem
        simp at hmem
        rw [hmem]
        simp [NetworkCall.isSendTx]
      · rw [hr] at hcr; cases hcr

/-- Contract metadata of a fully configured chain, used by the concrete
evaluation runs: quoter at address 1, router at address 2. -/
def contractsW : ChainContracts := ⟨some ⟨1⟩, some ⟨2⟩⟩

/-- A well-formed quoter response: `amountOut = 1000000`,
`sqrtPriceX96After = 7`, `initializedTicksCrossed = 3`,
`gasEstimate = 21`. -/
def quoteRespW : List ℕ := word32 1000000 ++ word32 7 ++ word32 3 ++ word32 21

/-- A fully healthy environment: one wallet address `5`, a decodable quote
response, a successful submission with hash `99`, and a receipt with
status success. -/
def envW : SwapEnv :=
  ⟨contractsW, [5], .ok quoteRespW, .ok 99, some ⟨.success⟩, fun _ => 18⟩

/-- Swap parameters with slippage `2` (a fraction strictly above `1`). -/
def pSlippageTwo : SwapParams := ⟨"lightlink", 10, 11, "1", some 2⟩

/-- C2 (counterexample): with slippage fraction `2 > 1` and a healthy
environment, `swap` does not fail at all — it fetches the quote, submits
the transaction and returns a `SwapTransaction` (with `minAmountOut =
1000000 - (1000000 * 20000) / 100000 = 800000`), performing three network
calls; so no `InvalidParameterError` is raised and network calls are not
prevented. -/
theorem swap_slippage_above_one_not_rejected :
    pSlippageTwo.slippage = some 2 ∧ (1 : ℚ) < 2 ∧
    (swapModel envW pSlippageTwo).1 =
      .ok ⟨99, 10, 11, 1000000000000000000, 800000, 5⟩ ∧
    (swapModel envW pSlippageTwo).2.length = 3 :=
  ⟨rfl, by norm_num, rfl, rfl⟩

/-- Chain metadata missing the router entry (quoter present at 1). -/
def contractsNoRouter : ChainContracts := ⟨some ⟨1⟩, none⟩

/-- The healthy environment except that the router address is absent. -/
def envNoRouter : SwapEnv :=
  ⟨contractsNoRouter, [5], .ok quoteRespW, .ok 99, some ⟨.success⟩, fun _ => 18⟩

/-- Swap parameters with slippage `0`. -/
def pSlippageZero : SwapParams := ⟨"lightlink", 10, 11, "1", some 0⟩

/-- C7 (counterexample): with the router address absent from the chain
metadata, `swap` fails with the undefined-dereference `TypeError` (not a
`ConfigurationError`), and only after one network call — the quote fetch —
has already been performed, contradicting "fails with ConfigurationError
before any quote fetch". -/
theorem swap_missing_router_counterexample :
    envNoRouter.contracts.universalRouter = none ∧
    (swapModel envNoRouter pSlippageZero).1 = .error .typeError ∧
    SwapError.typeError ≠ SwapError.configurationError ∧
    (swapModel envNoRouter pSlippageZero).2.length = 1 :=
  ⟨rfl, rfl, by decide, rfl⟩

/-- The healthy environment except that the mined receipt is reverted. -/
def envReverted : SwapEnv :=
  ⟨contractsW, [5], .ok quoteRespW, .ok 99, some ⟨.reverted⟩, fun _ => 18⟩

/-- Concrete instance of the receipt-failure theorem: with a reverted
receipt the pipeline returns no `SwapTransaction`, and the performed
receipt wait forces the `"Transaction failed"` error. -/
theorem swap_receipt_reverted_fails_witness :
    (∀ tx, (swapModel envReverted pSlippageZero).1 ≠ .ok tx) ∧
    (∀ txh, NetworkCall.waitReceipt txh ∈ (swapModel envReverted pSlippageZero).2 →
      (swapModel envReverted pSlippageZero).1 = .error .transactionFailed) :=
  swap_receipt_reverted_fails envReverted pSlippageZero
    (.inr ⟨⟨.reverted⟩, rfl, rfl⟩)

/-- The healthy environment except that the quote read call reverts. -/
def envQuoteRevert : SwapEnv :=
  ⟨contractsW, [5], .error (), .ok 99, some ⟨.success⟩, fun _ => 18⟩

/-- Concrete instance of the failed-quote theorem: with a reverting quote
call the pipeline returns no transaction, submits nothing, and the
performed read call forces the quote error. -/
theorem swap_quote_failure_no_submission_witness :
    (∀ tx, (swapModel envQuoteRevert pSlippageZero).1 ≠ .ok tx) ∧
    (∀ c ∈ (swapModel envQuoteRevert pSlippageZero).2, c.isSendTx = false) ∧
    (∀ target cd,
      NetworkCall.readCall target cd ∈ (swapModel envQuoteRevert pSlippageZero).2 →
      (swapModel envQuoteRevert pSlippageZero).1 = .error .quoteCallFailed ∨
      (swapModel envQuoteRevert pSlippageZero).1 = .error .quoteDecodeFailed) :=
  swap_quote_failure_no_submission envQuoteRevert pSlippageZero (.inl rfl)

/-- Concrete instance of the missing-contract theorem at the
router-missing environment: nothing is ever submitted and no transaction
is returned. -/
theorem swap_missing_contract_behavior_witness :
    (∀ tx, (swapModel envNoRouter pSlippageZero).1 ≠ .ok tx) ∧
    (∀ c ∈ (swapModel envNoRouter pSlippageZero).2, c.isSendTx = false) :=
  (swap_missing_contract_behavior envNoRouter pSlippageZero).2 rfl

/-- A successful checked packing is the plain packing. -/
theorem encodePackedChecked_some (ps : List PackedParam) (r : List ℕ)
    (h : encodePackedChecked ps = some r) : r = encodePacked ps := by
  unfold encodePackedChecked at h
  split at h
  · exact (Option.some_inj.mp h).symm
  · exact absurd h (by simp)

set_option maxHeartbeats 1000000 in
/-- C1: for every swap execution with decoded quote amount `q` and
caller-supplied slippage fraction `s ∈ [0, 1]`, the minimum output returned
in the `SwapTransaction` and encoded as `amountOutMin` in the router call is
`q - (q * round(s * 10000)) / 100000` (floor division of nonnegative
integers), it lies in `[0, q]`, and for `s = 0` it equals `q` exactly. -/
theorem swap_minAmountOut_formula (env : SwapEnv) (p : SwapParams) (s : ℚ)
    (tx : SwapTransaction) (hs : p.slippage = some s) (h0 : 0 ≤ s)
    (h1 : s ≤ 1) (hok : (swapModel env p).1 = .ok tx) :
    ∃ respBytes quote,
      env.quoteResponse = .ok respBytes ∧
      decodeQuoteResult respBytes = some quote ∧
      tx.minAmountOut = (quote.amountOut : ℤ) -
        (quote.amountOut : ℤ) * round (s * 10000) / 100000 ∧
      0 ≤ tx.minAmountOut ∧ tx.minAmountOut ≤ (quote.amountOut : ℤ) ∧
      (s = 0 → tx.minAmountOut = (quote.amountOut : ℤ)) ∧
      ∃ routerC inputs callBody,
        env.contracts.universalRouter = some routerC ∧
        NetworkCall.sendTx routerC.address tx.recipient
          ⟨executeSig, callBody⟩ ∈ (swapModel env p).2 ∧
        encodeAbiParametersChecked
          [.addressVal tx.recipient, .uintVal 256 tx.amountIn,
           .uintVal 256 tx.minAmountOut,
           .bytesVal (encodePacked
             [.addressVal p.fromToken, .uint24Val 3000,
              .addressVal p.toToken]),
           .boolVal true] = some inputs ∧
        encodeAbiParametersChecked
          [.bytesVal [0x00], .bytesArrayVal [inputs]] = some callBody := by
  obtain ⟨qC, rC, a, rest, amtIn, qB, rb, qt, bp, th, rt, inp, cb, hcq, hcr,
    haddr, hpe, hqb, hqr, hdec, hbp, hsr, hrc, hroute, hinp, hcb2, htx,
    htrace⟩ := swapModel_ok_inv env p tx hok
  rw [hs] at hbp
  have hbpr : bp = round (s * 10000) := jsBigIntSlippageBP_round s bp hbp
  have hcast : (s * 10000 : ℚ) = (bp : ℚ) := jsBigIntSlippageBP_spec s bp hbp
  have hbp0 : 0 ≤ bp := by
    have hb : (0 : ℚ) ≤ (bp : ℚ) := by
      rw [← hcast]; exact mul_nonneg h0 (by norm_num)
    exact_mod_cast hb
  have hbp1 : bp ≤ 10000 := by
    have hb : (bp : ℚ) ≤ 10000 := by
      rw [← hcast]
      calc s * 10000 ≤ 1 * 10000 := mul_le_mul_of_nonneg_right h1 (by norm_num)
        _ = 10000 := by norm_num
    exact_mod_cast hb
  have hq0 : (0 : ℤ) ≤ (qt.amountOut : ℤ) := Int.natCast_nonneg _
  have hdiv : jsDiv ((qt.amountOut : ℤ) * bp) 100000 =
      (qt.amountOut : ℤ) * bp / 100000 :=
    Int.tdiv_eq_ediv (mul_nonneg hq0 hbp0) (by norm_num)
  have hsub0 : 0 ≤ (qt.amountOut : ℤ) * bp / 100000 :=
    Int.ediv_nonneg (mul_nonneg hq0 hbp0) (by norm_num)
  have hsubq : (qt.amountOut : ℤ) * bp / 100000 ≤ (qt.amountOut : ℤ) := by
    have h2 : (qt.amountOut : ℤ) * bp ≤ (qt.amountOut : ℤ) * 10000 :=
      mul_le_mul_of_nonneg_left hbp1 hq0
    have h3 : (qt.amountOut : ℤ) * bp / 100000 ≤
        (qt.amountOut : ℤ) * 10000 / 100000 :=
      Int.ediv_le_ediv (by norm_num) h2
    have h4 : (qt.amountOut : ℤ) * 10000 / 100000 ≤ (qt.amountOut : ℤ) := by
      have h5 : (qt.amountOut : ℤ) * 10000 / 100000 = (qt.amountOut : ℤ) / 10 := by
        rw [show (100000 : ℤ) = 10000 * 10 by norm_num,
          show (qt.amountOut : ℤ) * 10000 = 10000 * (qt.amountOut : ℤ) by ring,
          Int.mul_ediv_mul_of_pos _ _ (by norm_num : (0 : ℤ) < 10000)]
      rw [h5]
      exact Int.ediv_le_self 10 hq0
    exact h3.trans h4
  have hrteq : rt = encodePacked
      [.addressVal p.fromToken, .uint24Val 3000, .addressVal p.toToken] :=
    encodePackedChecked_some _ _ hroute
  subst htx
  refine ⟨rb, qt, hqr, hdec, ?_, ?_, ?_, ?_, rC, inp, cb, hcr, ?_, ?_, hcb2⟩
  · show (qt.amountOut : ℤ) - jsDiv ((qt.amountOut : ℤ) * bp) 100000 = _
    rw [hdiv, ← hbpr]
  · show (0 : ℤ) ≤ (qt.amountOut : ℤ) - jsDiv ((qt.amountOut : ℤ) * bp) 100000
    rw [hdiv]; omega
  · show (qt.amountOut : ℤ) - jsDiv ((qt.amountOut : ℤ) * bp) 100000 ≤
      (qt.amountOut : ℤ)
    rw [hdiv]; omega
  · intro hs0
    subst hs0
    have hb0 : bp = 0 := by
      have hb : (bp : ℚ) = 0 := by rw [← hcast]; ring
      exact_mod_cast hb
    subst hb0
    show (qt.amountOut : ℤ) - jsDiv ((qt.amountOut : ℤ) * 0) 100000 =
      (qt.amountOut : ℤ)
    simp [jsDiv]
  · rw [htrace]; simp
  · rw [← hrteq]; exact hinp

/-- Slippage fraction `1/100` (= 0.01, the spec's 1% example). -/
def slippageCent : ℚ := ⟨1, 100, by decide, by decide⟩

/-- Swap parameters with slippage `0.01`. -/
def pSlippageCent : SwapParams := ⟨"lightlink", 10, 11, "1", some slippageCent⟩

/-- The transaction produced by the healthy environment at slippage `0.01`:
`slippageBasisPoints = 100` and
`minAmountOut = 1000000 - (1000000 * 100) / 100000 = 999000`, matching the
specification's worked example. -/
def txCent : SwapTransaction := ⟨99, 10, 11, 1000000000000000000, 999000, 5⟩

/-- Concrete instance of the minimum-output formula theorem at
`s = 0.01`, `q = 1000000`: the returned minimum output is `999000`. -/
theorem swap_minAmountOut_formula_witness :
    (0 : ℚ) ≤ slippageCent ∧ slippageCent ≤ 1 ∧
    (swapModel envW pSlippageCent).1 = .ok txCent ∧
    (∃ respBytes quote,
      envW.quoteResponse = .ok respBytes ∧
      decodeQuoteResult respBytes = some quote ∧
      txCent.minAmountOut = (quote.amountOut : ℤ) -
        (quote.amountOut : ℤ) * round (slippageCent * 10000) / 100000 ∧
      0 ≤ txCent.minAmountOut ∧
      txCent.minAmountOut ≤ (quote.amountOut : ℤ) ∧
      (slippageCent = 0 → txCent.minAmountOut = (quote.amountOut : ℤ)) ∧
      ∃ routerC inputs callBody,
        envW.contracts.universalRouter = some routerC ∧
        NetworkCall.sendTx routerC.address txCent.recipient
          ⟨executeSig, callBody⟩ ∈ (swapModel envW pSlippageCent).2 ∧
        encodeAbiParametersChecked
          [.addressVal txCent.recipient, .uintVal 256 txCent.amountIn,
           .uintVal 256 txCent.minAmountOut,
           .bytesVal (encodePacked
             [.addressVal pSlippageCent.fromToken, .uint24Val 3000,
              .addressVal pSlippageCent.toToken]),
           .boolVal true] = some inputs ∧
        encodeAbiParametersChecked
          [.bytesVal [0x00], .bytesArrayVal [inputs]] = some callBody) :=
  ⟨by decide, by decide, rfl,
    swap_minAmountOut_formula envW pSlippageCent slippageCent txCent rfl
      (by decide) (by decide) rfl⟩

/-- The packed v3 path unfolds to the plain byte concatenation. -/
theorem encodePacked_path (x f y : ℕ) :
    encodePacked [.addressVal x, .uint24Val f, .addressVal y] =
      natToBytesBE 20 x ++ natToBytesBE 3 f ++ natToBytesBE 20 y := by
  simp [encodePacked, encodePackedOne]

/-- A decoded quote is exactly the four consecutive 32-byte words of the
response. -/
theorem decodeQuoteResult_fields (bs : List ℕ) (qt : QuoteResult)
    (h : decodeQuoteResult bs = some qt) :
    qt.amountOut = wordAt bs 0 ∧ qt.sqrtPriceX96After = wordAt bs 32 ∧
    qt.initTicksCrossed = wordAt bs 64 ∧ qt.gasEstimate = wordAt bs 96 := by
  unfold decodeQuoteResult at h
  split at h
  · cases h
  · obtain rfl : qt = ⟨wordAt bs 0, wordAt bs 32, wordAt bs 64, wordAt bs 96⟩ :=
      (Option.some_inj.mp h).symm
    exact ⟨rfl, rfl, rfl, rfl⟩

/-- C10: in every successful swap, the recipient reported in the
`SwapTransaction` and the recipient encoded into the router input entry are
both the signer's own first wallet address; the first 32 bytes of the
encoded input entry are that address's word. -/
theorem swap_recipient_is_signer (env : SwapEnv) (p : SwapParams)
    (tx : SwapTransaction) (hok : (swapModel env p).1 = .ok tx) :
    ∃ a rest, env.walletAddresses = a :: rest ∧ tx.recipient = a ∧
      ∃ routerC inputs callBody,
        env.contracts.universalRouter = some routerC ∧
        NetworkCall.sendTx routerC.address a ⟨executeSig, callBody⟩ ∈
          (swapModel env p).2 ∧
        encodeAbiParametersChecked
          [.addressVal a, .uintVal 256 tx.amountIn,
           .uintVal 256 tx.minAmountOut,
           .bytesVal (encodePacked
             [.addressVal p.fromToken, .uint24Val 3000,
              .addressVal p.toToken]),
           .boolVal true] = some inputs ∧
        encodeAbiParametersChecked
          [.bytesVal [0x00], .bytesArrayVal [inputs]] = some callBody ∧
        inputs.take 32 = word32 a := by
  obtain ⟨qC, rC, a, rest, amtIn, qB, rb, qt, bp, th, rt, inp, cb, hcq, hcr,
    haddr, hpe, hqb, hqr, hdec, hbp, hsr, hrc, hroute, hinp, hcb2, htx,
    htrace⟩ := swapModel_ok_inv env p tx hok
  have hrteq := encodePackedChecked_some _ _ hroute
  subst htx
  refine ⟨a, rest, haddr, rfl, rC, inp, cb, hcr, ?_, ?_, hcb2, ?_⟩
  · rw [htrace]; simp
  · rw [← hrteq]; exact hinp
  · rw [encodeAbiChecked_swapInputs a amtIn _ rt inp hinp]
    simp only [List.append_assoc]
    exact List.take_left' (word32_length a)

/-- C5: every transaction ever submitted by the pipeline is a single
`execute` call whose commands argument is the one command byte `0x00` and
whose single inputs entry is the ABI encoding of
`(recipient, amountIn, amountOutMin, path, payerIsUser = true)` with
`path = tokenIn ++ fee ++ tokenOut` packed; the call body is the exact
byte layout of that encoding. -/
theorem swap_router_call_encoding (env : SwapEnv) (p : SwapParams)
    (target acct : ℕ) (cd : Calldata)
    (hmem : NetworkCall.sendTx target acct cd ∈ (swapModel env p).2) :
    cd.functionSig = executeSig ∧
    ∃ amountIn minOut inputs,
      encodeAbiParametersChecked
        [.addressVal acct, .uintVal 256 amountIn, .uintVal 256 minOut,
         .bytesVal (natToBytesBE 20 p.fromToken ++ natToBytesBE 3 3000 ++
           natToBytesBE 20 p.toToken),
         .boolVal true] = some inputs ∧
      cd.body = word32 64 ++ word32 128 ++
        (word32 1 ++ ([0] ++ List.replicate 31 0)) ++
        (word32 1 ++ (word32 32 ++
          (word32 inputs.length ++ padRight32 inputs))) := by
  rcases swapModel_trace_shape env p with ht |
    ⟨qC, amtIn, qB, hcq, hpe, hqb, ht |
      ⟨rC, a, rest, rb, qt, bp, rt, inp, cb, rest2, haddr, hqr, hdec, hbp,
       hcr, hroute, hinp, hcb2, ht, hrest⟩⟩
  · rw [ht] at hmem; cases hmem
  · rw [ht] at hmem; simp at hmem
  · rw [ht] at hmem
    have hcd : target = rC.address ∧ acct = a ∧ cd = ⟨executeSig, cb⟩ := by
      rcases hrest with rfl | ⟨txh, hsr, rfl⟩ <;> simpa using hmem
    obtain ⟨rfl, rfl, rfl⟩ := hcd
    have hrteq := encodePackedChecked_some _ _ hroute
    rw [hrteq, encodePacked_path] at hinp
    refine ⟨rfl, amtIn,
      (qt.amountOut : ℤ) - jsDiv ((qt.amountOut : ℤ) * bp) 100000, inp,
      hinp, ?_⟩
    exact encodeAbiChecked_execute inp cb hcb2

/-- C6: every read-only call ever performed by the pipeline is the
`quoteExactInputSingle` call against the configured quoter address, with
arguments `(tokenIn, tokenOut, parseEther(amount), 3000, 0)` encoded as the
five words of the static tuple, and a decoded response is exactly the four
words `(amountOut, sqrtPriceX96After, initializedTicksCrossed,
gasEstimate)`. -/
theorem swap_quote_call_encoding (env : SwapEnv) (p : SwapParams)
    (target : ℕ) (cd : Calldata)
    (hmem : NetworkCall.readCall target cd ∈ (swapModel env p).2) :
    cd.functionSig = quoteExactInputSingleSig ∧
    ∃ quoterC amountIn,
      env.contracts.uniswapV3Quoter = some quoterC ∧
      target = quoterC.address ∧
      parseEther p.amount = some amountIn ∧
      cd.body = word32 p.fromToken ++ word32 p.toToken ++
        word32 amountIn.toNat ++ word32 3000 ++ word32 0 ∧
      ∀ bs qt, env.quoteResponse = .ok bs → decodeQuoteResult bs = some qt →
        qt.amountOut = wordAt bs 0 ∧ qt.sqrtPriceX96After = wordAt bs 32 ∧
        qt.initTicksCrossed = wordAt bs 64 ∧ qt.gasEstimate = wordAt bs 96 := by
  rcases swapModel_trace_shape env p with ht |
    ⟨qC, amtIn, qB, hcq, hpe, hqb, ht |
      ⟨rC, a, rest, rb, qt, bp, rt, inp, cb, rest2, haddr, hqr, hdec, hbp,
       hcr, hroute, hinp, hcb2, ht, hrest⟩⟩
  · rw [ht] at hmem; cases hmem
  · rw [ht] at hmem
    have hcd : target = qC.address ∧ cd = ⟨quoteExactInputSingleSig, qB⟩ := by
      simpa using hmem
    obtain ⟨rfl, rfl⟩ := hcd
    refine ⟨rfl, qC, amtIn, hcq, rfl, hpe, ?_, ?_⟩
    · rw [quoteCallBodyChecked_spec _ _ _ _ _ hqb]; rfl
    · intro bs qt2 _ hd
      exact decodeQuoteResult_fields bs qt2 hd
  · rw [ht] at hmem
    have hcd : target = qC.address ∧ cd = ⟨quoteExactInputSingleSig, qB⟩ := by
      rcases hrest with rfl | ⟨txh, hsr, rfl⟩ <;> simpa using hmem
    obtain ⟨rfl, rfl⟩ := hcd
    refine ⟨rfl, qC, amtIn, hcq, rfl, hpe, ?_, ?_⟩
    · rw [quoteCallBodyChecked_spec _ _ _ _ _ hqb]; rfl
    · intro bs qt2 _ hd
      exact decodeQuoteResult_fields bs qt2 hd

/-- The transaction produced by the healthy environment at slippage `0`
(zero tolerance: `minAmountOut` equals the quoted `1000000` exactly). -/
def txZero : SwapTransaction := ⟨99, 10, 11, 1000000000000000000, 1000000, 5⟩

/-- The router input entry of the healthy zero-slippage run. -/
def inputsW : List ℕ :=
  (encodeAbiParametersChecked
    [.addressVal 5, .uintVal 256 1000000000000000000, .uintVal 256 1000000,
     .bytesVal (natToBytesBE 20 10 ++ natToBytesBE 3 3000 ++
       natToBytesBE 20 11),
     .boolVal true]).getD []

/-- The `execute` call body of the healthy zero-slippage run. -/
def callBodyW : List ℕ :=
  (encodeAbiParametersChecked
    [.bytesVal [0x00], .bytesArrayVal [inputsW]]).getD []

/-- The quoter call body of the healthy zero-slippage run. -/
def quoteBodyW : List ℕ :=
  (quoteCallBodyChecked 10 11 1000000000000000000 3000).getD []

/-- Concrete instance of the router-call encoding theorem at the healthy
zero-slippage run. -/
theorem swap_router_call_encoding_witness :
    NetworkCall.sendTx 2 5 ⟨executeSig, callBodyW⟩ ∈
      (swapModel envW pSlippageZero).2 ∧
    ((⟨executeSig, callBodyW⟩ : Calldata).functionSig = executeSig ∧
     ∃ amountIn minOut inputs,
       encodeAbiParametersChecked
         [.addressVal 5, .uintVal 256 amountIn, .uintVal 256 minOut,
          .bytesVal (natToBytesBE 20 pSlippageZero.fromToken ++
            natToBytesBE 3 3000 ++ natToBytesBE 20 pSlippageZero.toToken),
          .boolVal true] = some inputs ∧
       (⟨executeSig, callBodyW⟩ : Calldata).body = word32 64 ++ word32 128 ++
         (word32 1 ++ ([0] ++ List.replicate 31 0)) ++
         (word32 1 ++ (word32 32 ++
           (word32 inputs.length ++ padRight32 inputs)))) :=
  ⟨by decide,
   swap_router_call_encoding envW pSlippageZero 2 5
     ⟨executeSig, callBodyW⟩ (by decide)⟩

/-- Concrete instance of the quoter-call encoding theorem at the healthy
zero-slippage run. -/
theorem swap_quote_call_encoding_witness :
    NetworkCall.readCall 1 ⟨quoteExactInputSingleSig, quoteBodyW⟩ ∈
      (swapModel envW pSlippageZero).2 ∧
    ((⟨quoteExactInputSingleSig, quoteBodyW⟩ : Calldata).functionSig =
       quoteExactInputSingleSig ∧
     ∃ quoterC amountIn,
       envW.contracts.uniswapV3Quoter = some quoterC ∧
       (1 : ℕ) = quoterC.address ∧
       parseEther pSlippageZero.amount = some amountIn ∧
       (⟨quoteExactInputSingleSig, quoteBodyW⟩ : Calldata).body =
         word32 pSlippageZero.fromToken ++ word32 pSlippageZero.toToken ++
         word32 amountIn.toNat ++ word32 3000 ++ word32 0 ∧
       ∀ bs qt, envW.quoteResponse = .ok bs →
         decodeQuoteResult bs = some qt →
         qt.amountOut = wordAt bs 0 ∧ qt.sqrtPriceX96After = wordAt bs 32 ∧
         qt.initTicksCrossed = wordAt bs 64 ∧ qt.gasEstimate = wordAt bs 96) :=
  ⟨by decide,
   swap_quote_call_encoding envW pSlippageZero 1
     ⟨quoteExactInputSingleSig, quoteBodyW⟩ (by decide)⟩

/-- Concrete instance of the recipient theorem at the healthy
zero-slippage run: the recipient is the wallet's first address `5`. -/
theorem swap_recipient_is_signer_witness :
    (swapModel envW pSlippageZero).1 = .ok txZero ∧
    (∃ a rest, envW.walletAddresses = a :: rest ∧ txZero.recipient = a ∧
      ∃ routerC inputs callBody,
        envW.contracts.universalRouter = some routerC ∧
        NetworkCall.sendTx routerC.address a ⟨executeSig, callBody⟩ ∈
          (swapModel envW pSlippageZero).2 ∧
        encodeAbiParametersChecked
          [.addressVal a, .uintVal 256 txZero.amountIn,
           .uintVal 256 txZero.minAmountOut,
           .bytesVal (encodePacked
             [.addressVal pSlippageZero.fromToken, .uint24Val 3000,
              .addressVal pSlippageZero.toToken]),
           .boolVal true] = some inputs ∧
        encodeAbiParametersChecked
          [.bytesVal [0x00], .bytesArrayVal [inputs]] = some callBody ∧
        inputs.take 32 = word32 a) :=
  ⟨rfl, swap_recipient_is_signer envW pSlippageZero txZero rfl⟩

/-- C8: the minimum output of a successful swap is a function of the
decoded quote `amountOut` and the caller-supplied slippage alone: two runs
in arbitrary environments and with arbitrary parameters that agree on those
two values produce the same `minAmountOut` (and `SwapParams` has no
minimum-output field at all: its fields are exactly `chain`, `fromToken`,
`toToken`, `amount`, `slippage`). -/
theorem swap_minAmountOut_depends_only_on_quote_and_slippage
    (env1 env2 : SwapEnv) (p1 p2 : SwapParams) (tx1 tx2 : SwapTransaction)
    (h1 : (swapModel env1 p1).1 = .ok tx1)
    (h2 : (swapModel env2 p2).1 = .ok tx2)
    (hq : quotedAmountOut env1 = quotedAmountOut env2)
    (hs : p1.slippage = p2.slippage) :
    tx1.minAmountOut = tx2.minAmountOut := by
  obtain ⟨qC1, rC1, a1, rest1, amtIn1, qB1, rb1, qt1, bp1, th1, rt1, inp1,
    cb1, hcq1, hcr1, haddr1, hpe1, hqb1, hqr1, hdec1, hbp1, hsr1, hrc1,
    hroute1, hinp1, hcb21, htx1, htrace1⟩ := swapModel_ok_inv env1 p1 tx1 h1
  obtain ⟨qC2, rC2, a2, rest2, amtIn2, qB2, rb2, qt2, bp2, th2, rt2, inp2,
    cb2, hcq2, hcr2, haddr2, hpe2, hqb2, hqr2, hdec2, hbp2, hsr2, hrc2,
    hroute2, hinp2, hcb22, htx2, htrace2⟩ := swapModel_ok_inv env2 p2 tx2 h2
  have e1 : quotedAmountOut env1 = some qt1.amountOut := by
    simp [quotedAmountOut, hqr1, hdec1]
  have e2 : quotedAmountOut env2 = some qt2.amountOut := by
    simp [quotedAmountOut, hqr2, hdec2]
  rw [e1, e2] at hq
  have hqq : qt1.amountOut = qt2.amountOut := Option.some_inj.mp hq
  have hbb : bp1 = bp2 := by
    rw [hs] at hbp1
    exact Option.some_inj.mp (hbp1.symm.trans hbp2)
  subst htx1
  subst htx2
  show (qt1.amountOut : ℤ) - jsDiv ((qt1.amountOut : ℤ) * bp1) 100000 =
    (qt2.amountOut : ℤ) - jsDiv ((qt2.amountOut : ℤ) * bp2) 100000
  rw [hqq, hbb]

/-- A second healthy environment, differing from `envW` in every component
except the decoded `amountOut`: other quote words, other contract
addresses, another wallet, another hash, other token decimals. -/
def quoteRespAlt : List ℕ := word32 1000000 ++ word32 8 ++ word32 4 ++ word32 22

/-- Contracts of the second environment. -/
def contractsAlt : ChainContracts := ⟨some ⟨3⟩, some ⟨4⟩⟩

/-- The second healthy environment. -/
def envAlt : SwapEnv :=
  ⟨contractsAlt, [6], .ok quoteRespAlt, .ok 77, some ⟨.success⟩, fun _ => 6⟩

/-- Parameters for the second environment: other chain, tokens and amount,
same slippage `0`. -/
def pAlt : SwapParams := ⟨"pegasus", 12, 13, "2.5", some 0⟩

/-- The transaction of the second run: `amountIn = 2.5 * 10^18`. -/
def txAlt : SwapTransaction := ⟨77, 12, 13, 2500000000000000000, 1000000, 6⟩

/-- Concrete instance of the dependency theorem: two runs differing in
everything but the quoted `amountOut` and the slippage produce the same
minimum output. -/
theorem swap_minAmountOut_depends_only_witness :
    (swapModel envW pSlippageZero).1 = .ok txZero ∧
    (swapModel envAlt pAlt).1 = .ok txAlt ∧
    quotedAmountOut envW = quotedAmountOut envAlt ∧
    pSlippageZero.slippage = pAlt.slippage ∧
    txZero.minAmountOut = txAlt.minAmountOut :=
  ⟨rfl, rfl, by decide, rfl,
   swap_minAmountOut_depends_only_on_quote_and_slippage envW envAlt
     pSlippageZero pAlt txZero txAlt rfl rfl (by decide) rfl⟩

/-- Folding digits onto an accumulator is positional-notation evaluation. -/
theorem digitsToNat_go (a : ℕ) (l : List Char) :
    l.foldl (fun x c => 10 * x + digitToNat c) a =
      a * 10 ^ l.length + digitsToNat l := by
  induction l generalizing a with
  | nil => simp [digitsToNat]
  | cons c t ih =>
    simp only [List.foldl_cons, List.length_cons]
    rw [ih (10 * a + digitToNat c)]
    have h2 : digitsToNat (c :: t) = digitToNat c * 10 ^ t.length +
        digitsToNat t := by
      show t.foldl _ (10 * 0 + digitToNat c) = _
      rw [Nat.mul_zero, Nat.zero_add, ih (digitToNat c)]
    rw [h2]
    ring

/-- Digit strings concatenate positionally. -/
theorem digitsToNat_append (l1 l2 : List Char) :
    digitsToNat (l1 ++ l2) =
      digitsToNat l1 * 10 ^ l2.length + digitsToNat l2 := by
  show (l1 ++ l2).foldl _ 0 = _
  rw [List.foldl_append]
  exact digitsToNat_go _ l2

/-- A run of zero digits has value zero. -/
theorem digitsToNat_replicate_zero (k : ℕ) :
    digitsToNat (List.replicate k '0') = 0 := by
  induction k with
  | zero => rfl
  | succ n ih =>
    rw [List.replicate_succ]
    show (List.replicate n '0').foldl _ (10 * 0 + digitToNat '0') = 0
    have h0 : 10 * 0 + digitToNat '0' = 0 := rfl
    rw [h0]
    exact ih

/-- Trimming trailing zeros splits a digit string into its trimmed part
and a run of zeros. -/
theorem dropTrailingZeros_decomp (l : List Char) :
    ∃ k, l = dropTrailingZeros l ++ List.replicate k '0' := by
  refine ⟨(l.reverse.takeWhile (fun c => c = '0')).length, ?_⟩
  have hsplit : l.reverse.takeWhile (fun c => c = '0') ++
      l.reverse.dropWhile (fun c => c = '0') = l.reverse :=
    List.takeWhile_append_dropWhile _ _
  have hrep : l.reverse.takeWhile (fun c => c = '0') =
      List.replicate (l.reverse.takeWhile (fun c => c = '0')).length '0' := by
    rw [List.eq_replicate_iff]
    refine ⟨rfl, fun b hb => ?_⟩
    have h1 := List.mem_takeWhile_imp hb
    simpa using h1
  calc l = l.reverse.reverse := (List.reverse_reverse l).symm
    _ = (l.reverse.takeWhile (fun c => c = '0') ++
          l.reverse.dropWhile (fun c => c = '0')).reverse := by rw [hsplit]
    _ = dropTrailingZeros l ++
          (l.reverse.takeWhile (fun c => c = '0')).reverse := by
        rw [List.reverse_append]; rfl
    _ = _ := by
        rw [congrArg List.reverse hrep, List.reverse_replicate]

/-- For fractions of at most 18 digits, `parseUnits18` is exact decimal
scaling by `10 ^ 18` (the trailing-zero trim does not change the value). -/
theorem parseUnits18_short (i f : List Char) (hlen : f.length ≤ 18) :
    parseUnits18 i f =
      digitsToNat i * 10 ^ 18 + digitsToNat f * 10 ^ (18 - f.length) := by
  obtain ⟨k, hk⟩ := dropTrailingZeros_decomp f
  have hlength : (dropTrailingZeros f).length + k = f.length := by
    conv_rhs => rw [hk]
    simp
  have htle : ¬ (18 < (dropTrailingZeros f).length) := by omega
  simp only [parseUnits18]
  rw [if_neg htle]
  congr 1
  have hdf : digitsToNat f = digitsToNat (dropTrailingZeros f) * 10 ^ k := by
    conv_lhs => rw [hk]
    rw [digitsToNat_append, digitsToNat_replicate_zero, Nat.add_zero,
      List.length_replicate]
  rw [hdf, mul_assoc, ← pow_add]
  congr 2
  omega

/-- A digit character is not the dot separator. -/
theorem not_beq_dot_of_isDigit (c : Char) (h : c.isDigit = true) :
    ¬ ((c == '.') = true) := by
  intro hc
  rw [eq_of_beq hc] at h
  exact absurd h (by decide)

/-- Evaluating `parseEther` on a well-formed decimal string `ipart.fpart` (both parts
digit-only) evaluates `parseUnits18` on the two parts with no sign. -/
theorem parseEther_decimal (value : String) (ipart fpart : List Char)
    (hv : value.toList = ipart ++ '.' :: fpart)
    (hi : ipart.all Char.isDigit = true) (hf : fpart.all Char.isDigit = true) :
    parseEther value = some ((parseUnits18 ipart fpart : ℕ) : ℤ) := by
  have hi' : ∀ x ∈ ipart, Char.isDigit x = true := List.all_eq_true.mp hi
  have hf' : ∀ x ∈ fpart, Char.isDigit x = true := List.all_eq_true.mp hf
  have hneg : (decide ((ipart ++ '.' :: fpart).headD ' ' = '-')) = false := by
    cases ipart with
    | nil => simp only [List.nil_append, List.headD_cons]; rfl
    | cons c t =>
      have hc : c.isDigit = true := hi' c (by simp)
      simp only [List.cons_append, List.headD_cons]
      refine decide_eq_false fun hcon => ?_
      rw [hcon] at hc
      exact absurd hc (by decide)
  have hsplit : (ipart ++ '.' :: fpart).splitOn '.' = [ipart, fpart] := by
    show List.splitOnP _ _ = _
    rw [List.splitOnP_first _ _
      (fun x hx => not_beq_dot_of_isDigit x (hi' x hx)) '.' (by decide) fpart,
      List.splitOnP_eq_single _ _
      (fun x hx => not_beq_dot_of_isDigit x (hf' x hx))]
  simp only [parseEther, hv, hneg, if_false, Bool.false_eq_true, hsplit, hi,
    hf, Bool.and_self, if_true]

/-- Evaluating `parseEther` on a digit-only string (no dot): the default fraction
`"0"` trims away and the result is the integer scaled by `10 ^ 18`. -/
theorem parseEther_digits_only (value : String)
    (h : value.toList.all Char.isDigit = true) :
    parseEther value = some ((digitsToNat value.toList * 10 ^ 18 : ℕ) : ℤ) := by
  have h' : ∀ x ∈ value.toList, Char.isDigit x = true := List.all_eq_true.mp h
  have hneg : (decide (value.toList.headD ' ' = '-')) = false := by
    cases hcs : value.toList with
    | nil => rfl
    | cons c t =>
      have hc : c.isDigit = true := h' c (by rw [hcs]; simp)
      simp only [List.headD_cons]
      refine decide_eq_false fun hcon => ?_
      rw [hcon] at hc
      exact absurd hc (by decide)
  have hsplit : value.toList.splitOn '.' = [value.toList] := by
    show List.splitOnP _ _ = _
    exact List.splitOnP_eq_single _ _
      (fun x hx => not_beq_dot_of_isDigit x (h' x hx))
  have hpu : parseUnits18 value.toList ['0'] =
      digitsToNat value.toList * 10 ^ 18 := by
    rw [parseUnits18_short _ _ (by simp)]
    have hz : digitsToNat ['0'] = 0 := rfl
    rw [hz, Nat.zero_mul, Nat.add_zero]
  simp only [parseEther, hneg, if_false, Bool.false_eq_true, hsplit, h,
    if_true, hpu]

/-- The pipeline never consults the token-decimals metadata: its result and
trace are unchanged under any reassignment of `tokenDecimals`. -/
theorem swapModel_ignores_decimals (env : SwapEnv) (p : SwapParams)
    (d : ℕ → ℕ) :
    swapModel { env with tokenDecimals := d } p = swapModel env p := by
  obtain ⟨c, w, q, s, r, td⟩ := env
  rfl

/-- C9: in every successful swap, the input amount used for the quote call,
encoded into the router call, and reported as `amountIn` in the returned
`SwapTransaction` is the single value `parseEther(params.amount)` — the
decimal amount string scaled by `10 ^ 18` — independent of the source
token's actual decimals (the pipeline never reads token metadata). -/
theorem swap_amountIn_is_parseEther (env : SwapEnv) (p : SwapParams)
    (tx : SwapTransaction) (hok : (swapModel env p).1 = .ok tx) :
    ∃ v : ℤ, parseEther p.amount = some v ∧
      tx.amountIn = v ∧
      (∀ d, swapModel { env with tokenDecimals := d } p = swapModel env p) ∧
      (∀ ipart fpart : List Char, p.amount.toList = ipart ++ '.' :: fpart →
        ipart.all Char.isDigit = true → fpart.all Char.isDigit = true →
        fpart.length ≤ 18 →
        v = ((digitsToNat ipart * 10 ^ 18 +
          digitsToNat fpart * 10 ^ (18 - fpart.length) : ℕ) : ℤ)) ∧
      (p.amount.toList.all Char.isDigit = true →
        v = ((digitsToNat p.amount.toList * 10 ^ 18 : ℕ) : ℤ)) ∧
      ∃ quoterC quoteBody routerC inputs callBody,
        env.contracts.uniswapV3Quoter = some quoterC ∧
        NetworkCall.readCall quoterC.address
          ⟨quoteExactInputSingleSig, quoteBody⟩ ∈ (swapModel env p).2 ∧
        quoteBody = word32 p.fromToken ++ word32 p.toToken ++
          word32 v.toNat ++ word32 3000 ++ word32 0 ∧
        env.contracts.universalRouter = some routerC ∧
        NetworkCall.sendTx routerC.address tx.recipient
          ⟨executeSig, callBody⟩ ∈ (swapModel env p).2 ∧
        encodeAbiParametersChecked
          [.addressVal tx.recipient, .uintVal 256 v,
           .uintVal 256 tx.minAmountOut,
           .bytesVal (encodePacked
             [.addressVal p.fromToken, .uint24Val 3000,
              .addressVal p.toToken]),
           .boolVal true] = some inputs ∧
        encodeAbiParametersChecked
          [.bytesVal [0x00], .bytesArrayVal [inputs]] = some callBody := by
  obtain ⟨qC, rC, a, rest, amtIn, qB, rb, qt, bp, th, rt, inp, cb, hcq, hcr,
    haddr, hpe, hqb, hqr, hdec, hbp, hsr, hrc, hroute, hinp, hcb2, htx,
    htrace⟩ := swapModel_ok_inv env p tx hok
  have hrteq := encodePackedChecked_some _ _ hroute
  subst htx
  refine ⟨amtIn, hpe, rfl, ?_, ?_, ?_, qC, qB, rC, inp, cb, hcq, ?_, ?_, hcr,
    ?_, ?_, hcb2⟩
  · exact fun d => swapModel_ignores_decimals env p d
  · intro ipart fpart hv hi hf hlen
    have hthis := parseEther_decimal p.amount ipart fpart hv hi hf
    rw [hpe] at hthis
    have h2 := Option.some_inj.mp hthis
    rw [parseUnits18_short _ _ hlen] at h2
    exact h2
  · intro hdig
    have hthis := parseEther_digits_only p.amount hdig
    rw [hpe] at hthis
    exact Option.some_inj.mp hthis
  · rw [htrace]; simp
  · rw [quoteCallBodyChecked_spec _ _ _ _ _ hqb]; rfl
  · rw [htrace]; simp
  · rw [← hrteq]; exact hinp

/-- Swap parameters with a fractional decimal amount string. -/
def pDecimal : SwapParams := ⟨"lightlink", 10, 11, "1.5", some 0⟩

/-- The transaction of the healthy run at amount `"1.5"`:
`amountIn = 1.5 * 10 ^ 18`. -/
def txDecimal : SwapTransaction :=
  ⟨99, 10, 11, 1500000000000000000, 1000000, 5⟩

/-- Concrete instance of the amount-scaling theorem at amount `"1.5"`. -/
theorem swap_amountIn_is_parseEther_witness :
    (swapModel envW pDecimal).1 = .ok txDecimal ∧
    (∃ v : ℤ, parseEther pDecimal.amount = some v ∧
      txDecimal.amountIn = v ∧
      (∀ d, swapModel { envW with tokenDecimals := d } pDecimal =
        swapModel envW pDecimal) ∧
      (∀ ipart fpart : List Char,
        pDecimal.amount.toList = ipart ++ '.' :: fpart →
        ipart.all Char.isDigit = true → fpart.all Char.isDigit = true →
        fpart.length ≤ 18 →
        v = ((digitsToNat ipart * 10 ^ 18 +
          digitsToNat fpart * 10 ^ (18 - fpart.length) : ℕ) : ℤ)) ∧
      (pDecimal.amount.toList.all Char.isDigit = true →
        v = ((digitsToNat pDecimal.amount.toList * 10 ^ 18 : ℕ) : ℤ)) ∧
      ∃ quoterC quoteBody routerC inputs callBody,
        envW.contracts.uniswapV3Quoter = some quoterC ∧
        NetworkCall.readCall quoterC.address
          ⟨quoteExactInputSingleSig, quoteBody⟩ ∈ (swapModel envW pDecimal).2 ∧
        quoteBody = word32 pDecimal.fromToken ++ word32 pDecimal.toToken ++
          word32 v.toNat ++ word32 3000 ++ word32 0 ∧
        envW.contracts.universalRouter = some routerC ∧
        NetworkCall.sendTx routerC.address txDecimal.recipient
          ⟨executeSig, callBody⟩ ∈ (swapModel envW pDecimal).2 ∧
        encodeAbiParametersChecked
          [.addressVal txDecimal.recipient, .uintVal 256 v,
           .uintVal 256 txDecimal.minAmountOut,
           .bytesVal (encodePacked
             [.addressVal pDecimal.fromToken, .uint24Val 3000,
              .addressVal pDecimal.toToken]),
           .boolVal true] = some inputs ∧
        encodeAbiParametersChecked
          [.bytesVal [0x00], .bytesArrayVal [inputs]] = some callBody) :=
  ⟨rfl, swap_amountIn_is_parseEther envW pDecimal txDecimal rfl⟩
